import Mathlib

/-!
Verification of the connection-registry and message fan-out subsystem of the
messaging service (server code in `src/server/routes.ts` and
`src/server/storage.ts`).  The JavaScript `Map` values used by `MemStorage`
and by the module-level `activeConnections` table are embedded as
insertion-ordered association lists whose `set` replaces an existing key in
place and appends a fresh key at the end, exactly as `Map.prototype.set`
behaves.  Numbers produced by `Number(...)` on request fields are embedded as
`Option Nat`, with `none` standing for `NaN` (a missing or non-numeric field);
`===` on such numbers is `jsNumEq`, which is false whenever either side is
`NaN`, matching IEEE `NaN === NaN`.
-/

namespace Messaging

/-- Insertion-ordered association list with `Nat` keys, modelling a JavaScript
`Map<number, β>`. -/
abbrev JsMap (β : Type) : Type := List (Nat × β)

namespace JsMap

def empty {β : Type} : JsMap β := ([] : List (Nat × β))

/-- `Map.prototype.get`: value of the first pair whose key matches. -/
def get {β : Type} : JsMap β → Nat → Option β
  | [], _ => none
  | p :: rest, k => if p.1 = k then some p.2 else get rest k

/-- `Map.prototype.set`: replace in place when the key exists, else append. -/
def set {β : Type} : JsMap β → Nat → β → JsMap β
  | [], k, v => [(k, v)]
  | p :: rest, k, v => if p.1 = k then (k, v) :: rest else p :: set rest k v

/-- `Map.prototype.delete` (ignoring its boolean result). -/
def delete {β : Type} : JsMap β → Nat → JsMap β
  | [], _ => []
  | p :: rest, k => if p.1 = k then delete rest k else p :: delete rest k

/-- `Map.prototype.size`. -/
def size {β : Type} (m : JsMap β) : Nat := m.length

/-- `Array.from(map.values())`: values in insertion order. -/
def values {β : Type} (m : JsMap β) : List β := m.map Prod.snd

/-- Number of entries stored under key `k` (1 or 0 for a well-formed map). -/
def countKey {β : Type} (m : JsMap β) (k : Nat) : Nat :=
  m.countP (fun p => p.1 = k)

/-- A well-formed map holds at most one entry per key (stated over the
stored pairs so that it is decidable); every map reachable through
`set`/`delete` from `empty` satisfies this. -/
def WFmap {β : Type} (m : JsMap β) : Prop := ∀ p ∈ m, countKey m p.1 ≤ 1

instance {β : Type} (m : JsMap β) : Decidable m.WFmap :=
  inferInstanceAs (Decidable (∀ p ∈ m, countKey m p.1 ≤ 1))

end JsMap

/-! ## Data model (from `@shared/schema` and `src/server/storage.ts`)

Timestamps (`Date` values) are embedded as `Nat` clock readings supplied by
the caller (`now`); all route/storage operations that call `new Date()` take
such a parameter.  `metadata` is an opaque JSON value; since the route only
deep-copies it (`JSON.parse(JSON.stringify(x))`, the identity on JSON
values), it is embedded as an opaque `Option String`. -/

structure User where
  id : Nat
  username : String
  password : String
  isActive : Bool
  lastSeen : Option Nat
deriving Repr, DecidableEq

inductive ConvType
  | priv
  | group
deriving Repr, DecidableEq

structure Conversation where
  id : Nat
  name : Option String
  type : ConvType
  createdAt : Nat
deriving Repr, DecidableEq

structure ConversationMember where
  id : Nat
  userId : Nat
  conversationId : Nat
  joinedAt : Nat
deriving Repr, DecidableEq

/-- A message row.  `conversationId` is `Option Nat` because the route builds
it with `Number(req.body.conversationId)`, which is `NaN` (`none`) when the
field is missing or non-numeric. -/
structure Message where
  id : Nat
  conversationId : Option Nat
  senderId : Nat
  content : Option String
  type : String
  metadata : Option String
  timestamp : Option Nat
deriving Repr, DecidableEq

structure InsertUser where
  username : String
  password : String
deriving Repr, DecidableEq

/-- A live WebSocket handle: `hid` is the object identity of the handle,
`readyState` its reported state (`WebSocket.OPEN = 1`). -/
structure WS where
  hid : Nat
  readyState : Nat
deriving Repr, DecidableEq

/-- `WebSocket.OPEN` -/
def wsOPEN : Nat := 1

/-- `a === b` on numbers that may be `NaN` (embedded as `none`): `NaN`
compares unequal to everything, including itself. -/
def jsNumEq : Option Nat → Option Nat → Bool
  | some a, some b => a == b
  | _, _ => false

/-- The private fields of `MemStorage` (`src/server/storage.ts`, lines 9-32). -/
structure Storage where
  users : JsMap User
  messages : JsMap Message
  conversations : JsMap Conversation
  conversationMembers : JsMap ConversationMember
  currentId : Nat
  currentMessageId : Nat
  currentConversationId : Nat
  currentMemberId : Nat
deriving Repr, DecidableEq

/-- The state built by the `MemStorage` constructor. -/
def emptyStorage : Storage :=
  { users := [], messages := [], conversations := [], conversationMembers := [],
    currentId := 1, currentMessageId := 1, currentConversationId := 1, currentMemberId := 1 }

/-! ## Storage operations (`src/server/storage.ts`) -/

/-- `MemStorage.getUser` (line 34). -/
def getUser (st : Storage) (id : Nat) : Option User := st.users.get id

/-- `MemStorage.createUser` (lines 44-58): throws "Maximum user limit
reached" when 10 or more users already exist, otherwise allocates
`currentId`, stores the user with `isActive: false` and fresh `lastSeen`. -/
def createUser (st : Storage) (iu : InsertUser) (now : Nat) :
    Except String (Storage × User) :=
  if 10 ≤ st.users.size then
    Except.error "Maximum user limit reached"
  else
    let id := st.currentId
    let user : User :=
      { id := id, username := iu.username, password := iu.password,
        isActive := false, lastSeen := some now }
    Except.ok ({ st with users := st.users.set id user, currentId := id + 1 }, user)

/-- `MemStorage.addUserToConversation` (lines 94-104). -/
def addUserToConversation (st : Storage) (userId conversationId now : Nat) : Storage :=
  let id := st.currentMemberId
  { st with
    conversationMembers :=
      st.conversationMembers.set id
        { id := id, userId := userId, conversationId := conversationId, joinedAt := now },
    currentMemberId := id + 1 }

/-- `MemStorage.createConversation` (lines 64-78): allocates an id, stores
the conversation, then adds the creator as a member. -/
def createConversation (st : Storage) (name : Option String) (ty : ConvType)
    (creatorId now : Nat) : Storage × Conversation :=
  let id := st.currentConversationId
  let conv : Conversation := { id := id, name := name, type := ty, createdAt := now }
  let st1 := { st with conversations := st.conversations.set id conv,
                       currentConversationId := id + 1 }
  (addUserToConversation st1 creatorId id now, conv)

/-- The membership rows of a conversation (the `filter` step of
`MemStorage.getConversationMembers`, lines 85-87).  `cid` may be `NaN`. -/
def memberRows (st : Storage) (cid : Option Nat) : List ConversationMember :=
  (st.conversationMembers.values).filter (fun r => jsNumEq (some r.conversationId) cid)

/-- The userIds of a conversation's membership rows. -/
def rowUserIds (st : Storage) (cid : Option Nat) : List Nat :=
  (memberRows st cid).map (fun r => r.userId)

/-- `MemStorage.getConversationMembers` (lines 84-92): membership rows
filtered by conversation, mapped through the user table, dropping userIds
with no user record (`.map(id => this.users.get(id)!).filter(Boolean)`). -/
def getConversationMembers (st : Storage) (cid : Option Nat) : List User :=
  (rowUserIds st cid).filterMap (fun uid => st.users.get uid)

/-- `MemStorage.getUserConversations` (lines 106-119). -/
def getUserConversations (st : Storage) (userId : Nat) : List Conversation :=
  (((st.conversationMembers.values).filter (fun r => r.userId == userId)).map
      (fun r => r.conversationId)).filterMap (fun cid => st.conversations.get cid)

/-- Sort key of a message: `a.timestamp ? getTime(a.timestamp) : 0`. -/
def tsKey (m : Message) : Nat := m.timestamp.getD 0

/-- Stable insertion of a message into an ascending-by-timestamp list (the
element being inserted came earlier in the original array, so it goes before
equal keys, matching the stable `Array.prototype.sort`). -/
def insertByTs (m : Message) : List Message → List Message
  | [] => [m]
  | y :: ys => if tsKey y < tsKey m then y :: insertByTs m ys else m :: y :: ys

/-- Stable ascending sort by timestamp. -/
def sortByTs : List Message → List Message
  | [] => []
  | x :: xs => insertByTs x (sortByTs xs)

/-- `MemStorage.getMessages` (lines 121-132): messages of the conversation
in ascending timestamp order. -/
def getMessages (st : Storage) (cid : Option Nat) : List Message :=
  sortByTs ((st.messages.values).filter (fun m => jsNumEq m.conversationId cid))

/-- `Omit<Message, 'id'>`, the payload of `MemStorage.createMessage`. -/
structure MessageData where
  senderId : Nat
  conversationId : Option Nat
  content : Option String
  type : String
  metadata : Option String
  timestamp : Option Nat
deriving Repr, DecidableEq

/-- `MemStorage.createMessage` (lines 134-140). -/
def createMessage (st : Storage) (md : MessageData) : Storage × Message :=
  let id := st.currentMessageId
  let msg : Message :=
    { id := id, conversationId := md.conversationId, senderId := md.senderId,
      content := md.content, type := md.type, metadata := md.metadata,
      timestamp := md.timestamp }
  ({ st with messages := st.messages.set id msg, currentMessageId := id + 1 }, msg)

/-- `MemStorage.setUserActive` (lines 142-152): updates `isActive` and
`lastSeen` when the user exists, otherwise does nothing.  Never throws. -/
def setUserActive (st : Storage) (userId : Nat) (isActive : Bool) (now : Nat) : Storage :=
  match st.users.get userId with
  | some user =>
      { st with users :=
          st.users.set userId { user with isActive := isActive, lastSeen := some now } }
  | none => st

/-! ## Well-formedness of storage states

These hold at `emptyStorage` and are preserved by every storage operation:
each table stores a record under its own id, and the `current*Id` counters
are strictly above every allocated key. -/

/-- Every user row is stored under its own id. -/
def usersWF (st : Storage) : Prop := ∀ p ∈ st.users, (Prod.snd p).id = p.1

/-- Every conversation row is stored under its own id. -/
def convIdWF (st : Storage) : Prop := ∀ p ∈ st.conversations, (Prod.snd p).id = p.1

/-- Conversation keys are below the allocation counter. -/
def convKeysWF (st : Storage) : Prop :=
  ∀ p ∈ st.conversations, p.1 < st.currentConversationId

/-- Membership rows reference only already-allocated conversation ids. -/
def rowConvWF (st : Storage) : Prop :=
  ∀ p ∈ st.conversationMembers, (Prod.snd p).conversationId < st.currentConversationId

/-- Membership keys are below the allocation counter. -/
def rowKeyWF (st : Storage) : Prop :=
  ∀ p ∈ st.conversationMembers, p.1 < st.currentMemberId

/-- Message keys are below the allocation counter. -/
def msgKeyWF (st : Storage) : Prop := ∀ p ∈ st.messages, p.1 < st.currentMessageId

instance (st : Storage) : Decidable (usersWF st) :=
  inferInstanceAs (Decidable (∀ p ∈ st.users, (Prod.snd p).id = p.1))

instance (st : Storage) : Decidable (convIdWF st) :=
  inferInstanceAs (Decidable (∀ p ∈ st.conversations, (Prod.snd p).id = p.1))

instance (st : Storage) : Decidable (convKeysWF st) :=
  inferInstanceAs (Decidable (∀ p ∈ st.conversations, p.1 < st.currentConversationId))

instance (st : Storage) : Decidable (rowConvWF st) :=
  inferInstanceAs
    (Decidable (∀ p ∈ st.conversationMembers,
      (Prod.snd p).conversationId < st.currentConversationId))

instance (st : Storage) : Decidable (rowKeyWF st) :=
  inferInstanceAs (Decidable (∀ p ∈ st.conversationMembers, p.1 < st.currentMemberId))

instance (st : Storage) : Decidable (msgKeyWF st) :=
  inferInstanceAs (Decidable (∀ p ∈ st.messages, p.1 < st.currentMessageId))


/-! ## WebSocket connection lifecycle (`src/server/routes.ts`, lines 17-94)

`activeConnections` is a `Map<number, WebSocket>`, embedded as `JsMap WS`.
The handshake's external collaborators (the `cookie` parser output, the
`cookie-signature` unsign function and the session store) are supplied as an
environment record; `none` results model a missing header, a failed unsign
(`false` in JS) and a missing session respectively. -/

/-- `session.passport?.user`: the identity bound to a session, if any. -/
structure SessionData where
  passportUser : Option Nat
deriving Repr, DecidableEq

/-- The handshake's inputs and external collaborators. -/
structure ConnEnv where
  /-- `req.headers.cookie` after `parseCookie`; `none` = header absent. -/
  cookieHeader : Option (List (String × String))
  /-- `signature.unsign(·, SESSION_SECRET)`; `none` = returned `false`. -/
  unsign : String → Option String
  /-- `storage.sessionStore.get`; `none` = no session (or error). -/
  sessionGet : String → Option SessionData

/-- First cookie with the given name (`parseCookie` object lookup). -/
def lookupCookie (cookies : List (String × String)) (name : String) : Option String :=
  (cookies.find? (fun p => p.1 == name)).map Prod.snd

/-- `s.startsWith(pre)`, computed on the character list. -/
def strStartsWith (s pre : String) : Bool := pre.data.isPrefixOf s.data

/-- `s.slice(n)`: drop the first `n` characters. -/
def strDrop (s : String) (n : Nat) : String := String.mk (s.data.drop n)

/-- Result of running the `wss.on('connection')` handler of
`registerRoutes` to completion for one incoming socket. -/
structure ConnResult where
  /-- `activeConnections` afterwards. -/
  reg : JsMap WS
  /-- storage afterwards. -/
  st : Storage
  /-- whether the handler called `ws.close()`. -/
  closed : Bool
  /-- the `storage.setUserActive(userId, flag)` calls issued. -/
  presenceCalls : List (Nat × Bool)
  /-- userIds to which a `{type:"connected"}` ack was sent. -/
  sent : List Nat
deriving Repr, DecidableEq

/-- The credential-resolution pipeline of the connection handler
(lines 30-75): cookie header → `connect.sid` cookie → `s:` prefix check →
unsign → session lookup → `session.passport?.user` → `storage.getUser`.
Returns the authenticated user, or `none` when any stage rejects. -/
def authResolve (env : ConnEnv) (st : Storage) : Option User :=
  match env.cookieHeader with
  | none => none
  | some cookies =>
    match lookupCookie cookies "connect.sid" with
    | none => none
    | some sid =>
      if ¬ strStartsWith sid "s:" then none
      else
        match env.unsign (strDrop sid 2) with
        | none => none
        | some sessionId =>
          match env.sessionGet sessionId with
          | none => none
          | some sess =>
            match sess.passportUser with
            | none => none
            | some uid => getUser st uid

/-- The `wss.on('connection')` handler (lines 26-94).  Every rejecting stage
logs and calls `ws.close()` before `activeConnections` or presence is
touched.  On success the handler runs `activeConnections.set(user.id, ws)`
(line 78) and then `await storage.setUserActive(user.id, true)` (line 79).
`presenceThrows` models the `IStorage` presence write throwing (the
in-memory implementation never does, but the interface allows a failing
backend); the throw lands in the catch-all at lines 90-93, which logs and
calls `ws.close()` — after the registry entry was already installed. -/
def handleConnection (env : ConnEnv) (st : Storage) (reg : JsMap WS) (ws : WS)
    (now : Nat) (presenceThrows : Bool) : ConnResult :=
  match authResolve env st with
  | none =>
      { reg := reg, st := st, closed := true, presenceCalls := [], sent := [] }
  | some user =>
      let reg' := reg.set user.id ws
      if presenceThrows then
        { reg := reg', st := st, closed := true,
          presenceCalls := [(user.id, true)], sent := [] }
      else
        { reg := reg', st := setUserActive st user.id true now, closed := false,
          presenceCalls := [(user.id, true)], sent := [user.id] }

/-- The `ws.on('close')` handler registered for an authenticated connection
of `userId` (lines 81-85): it runs `activeConnections.delete(user.id)` and
`storage.setUserActive(user.id, false)` unconditionally — it does not check
that the registry still maps `userId` to the socket whose close event fired. -/
def wsOnClose (reg : JsMap WS) (st : Storage) (userId now : Nat) : ConnResult :=
  { reg := reg.delete userId, st := setUserActive st userId false now,
    closed := true, presenceCalls := [(userId, false)], sent := [] }

/-! ## Message routes (`src/server/routes.ts`, lines 140-205) -/

/-- The `{ type: "new_message", data: message }` envelope serialized into
each live push. -/
structure Envelope where
  type : String
  data : Message
deriving Repr, DecidableEq

/-- Request body of `POST /api/messages`.  `conversationId` is the result of
`Number(req.body.conversationId)` (`none` = `NaN`); `content` is
`req.body.content || null`. -/
structure MessageBody where
  conversationId : Option Nat
  content : Option String
  type : String
  metadata : Option String
deriving Repr, DecidableEq

/-- Outcome of `POST /api/messages` for an authenticated caller. -/
structure MsgResult where
  st : Storage
  status : Nat
  message : Option Message
  /-- live pushes: (recipient userId, envelope), in broadcast order. -/
  pushes : List (Nat × Envelope)
deriving Repr, DecidableEq

/-- The `POST /api/messages` handler (lines 169-205) for an authenticated
caller: build `messageData`, fetch the conversation's members, reject with
403 unless some member has the caller's id, otherwise persist via
`createMessage` and push the envelope to every member whose registered
connection reports `readyState === WebSocket.OPEN`. -/
def postMessage (st : Storage) (reg : JsMap WS) (caller : Nat)
    (body : MessageBody) (now : Nat) : MsgResult :=
  let md : MessageData :=
    { senderId := caller, conversationId := body.conversationId,
      content := body.content, type := body.type, metadata := body.metadata,
      timestamp := some now }
  let members := getConversationMembers st md.conversationId
  if members.any (fun m => m.id == caller) then
    let res := createMessage st md
    let pushes := members.filterMap (fun m =>
      match reg.get m.id with
      | some conn =>
          if conn.readyState == wsOPEN then
            some (m.id, { type := "new_message", data := res.2 : Envelope })
          else none
      | none => none)
    { st := res.1, status := 200, message := some res.2, pushes := pushes }
  else
    { st := st, status := 403, message := none, pushes := [] }

/-! ## Conversation route (`src/server/routes.ts`, lines 102-138) -/

/-- Outcome of `POST /api/conversations` for an authenticated caller. -/
structure ConvResult where
  st : Storage
  status : Nat
  conv : Conversation
deriving Repr, DecidableEq

/-- The existing-private-chat scan (lines 110-122): the first of the
caller's conversations that is private and has a member whose id equals the
target id. -/
def findExistingPrivate (st : Storage) (caller target : Nat) : Option Conversation :=
  (getUserConversations st caller).find? (fun conv =>
    conv.type == ConvType.priv &&
      (getConversationMembers st (some conv.id)).any (fun m => m.id == target))

/-- The creation path of the handler (lines 124-133): `createConversation`
(which adds the caller as a member), then `addUserToConversation` for each
requested userId, answering 201 with the new conversation. -/
def createConvFlow (st : Storage) (caller : Nat) (name : Option String)
    (ty : ConvType) (userIds : List Nat) (now : Nat) : ConvResult :=
  let res := createConversation st name ty caller now
  let st2 := userIds.foldl (fun s uid => addUserToConversation s uid res.2.id now) res.1
  { st := st2, status := 201, conv := res.2 }

/-- The `POST /api/conversations` handler (lines 102-138) for an
authenticated caller: for `type === 'private' && userIds.length === 1` it
first scans for an existing private conversation containing the target and
answers 200 with it; otherwise it creates. -/
def postConversation (st : Storage) (caller : Nat) (name : Option String)
    (ty : ConvType) (userIds : List Nat) (now : Nat) : ConvResult :=
  if ty == ConvType.priv && userIds.length == 1 then
    match findExistingPrivate st caller (userIds.headD 0) with
    | some conv => { st := st, status := 200, conv := conv }
    | none => createConvFlow st caller name ty userIds now
  else
    createConvFlow st caller name ty userIds now

/-- Whether the registry holds a connection for `uid` that reports itself
open (`activeConnections.get(id)?.readyState === WebSocket.OPEN`). -/
def connOpen (reg : JsMap WS) (uid : Nat) : Bool :=
  match reg.get uid with
  | some conn => conn.readyState == wsOPEN
  | none => false

/-! ## Concrete fixtures for witnesses and counterexamples -/

def wsA : WS := { hid := 101, readyState := 1 }

def wsB : WS := { hid := 102, readyState := 1 }

def userA : User :=
  { id := 1, username := "alice", password := "pw", isActive := false, lastSeen := some 0 }

def userB : User :=
  { id := 2, username := "bob", password := "pw", isActive := false, lastSeen := some 0 }

def userC : User :=
  { id := 3, username := "carol", password := "pw", isActive := false, lastSeen := some 0 }

/-- Three registered users, nothing else. -/
def stABC : Storage :=
  { emptyStorage with users := [(1, userA), (2, userB), (3, userC)], currentId := 4 }

/-- An environment whose credentials resolve to user 1 of `stABC`. -/
def envA : ConnEnv :=
  { cookieHeader := some [("connect.sid", "s:SIG")],
    unsign := fun s => if s == "SIG" then some "SESS" else none,
    sessionGet := fun s => if s == "SESS" then some { passportUser := some 1 } else none }

/-- Ten registered users: the user table at the `createUser` capacity. -/
def st10 : Storage :=
  { emptyStorage with
    users := (List.range 10).map (fun i =>
      (i + 1,
       { id := i + 1, username := "u", password := "p",
         isActive := false, lastSeen := some 0 })),
    currentId := 11 }

/-! ## Library lemmas about the JS map model -/

namespace JsMap

theorem get_set_self {β : Type} (m : JsMap β) (k : Nat) (v : β) :
    (m.set k v).get k = some v := by
  induction m with
  | nil => simp [set, get]
  | cons p rest ih =>
    by_cases h : p.1 = k
    · simp [set, get, h]
    · simp [set, get, h, ih]

theorem get_set_ne {β : Type} (m : JsMap β) (k j : Nat) (v : β) (h : j ≠ k) :
    (m.set k v).get j = m.get j := by
  have h' : k ≠ j := Ne.symm h
  induction m with
  | nil => simp [set, get, h']
  | cons p rest ih =>
    by_cases hp : p.1 = k
    · subst hp
      simp [set, get, h']
    · by_cases hj : p.1 = j
      · simp [set, get, hp, hj, h, h']
      · simp [set, get, hp, hj, ih]

theorem get_delete_self {β : Type} (m : JsMap β) (k : Nat) :
    (m.delete k).get k = none := by
  induction m with
  | nil => simp [delete, get]
  | cons p rest ih =>
    by_cases h : p.1 = k
    · simpa [delete, h] using ih
    · simp [delete, get, h, ih]

theorem get_delete_ne {β : Type} (m : JsMap β) (k j : Nat) (h : j ≠ k) :
    (m.delete k).get j = m.get j := by
  have h' : k ≠ j := Ne.symm h
  induction m with
  | nil => simp [delete]
  | cons p rest ih =>
    by_cases hp : p.1 = k
    · subst hp
      simp [delete, get, h', ih]
    · simp [delete, get, hp, ih]

theorem countKey_set_self {β : Type} (m : JsMap β) (k : Nat) (v : β) :
    (m.set k v).countKey k = max (m.countKey k) 1 := by
  induction m with
  | nil => simp [set, countKey]
  | cons p rest ih =>
    by_cases h : p.1 = k
    · simp [set, countKey, h, List.countP_cons]
    · simp only [set, h, if_false, countKey, List.countP_cons] at *
      simp [h, ih]

theorem countKey_set_ne {β : Type} (m : JsMap β) (k j : Nat) (v : β) (h : j ≠ k) :
    (m.set k v).countKey j = m.countKey j := by
  have h' : k ≠ j := Ne.symm h
  induction m with
  | nil => simp [set, countKey, List.countP_cons, h']
  | cons p rest ih =>
    by_cases hp : p.1 = k
    · subst hp
      simp [set, countKey, List.countP_cons, h']
    · simp only [set, hp, if_false, countKey, List.countP_cons] at *
      simp [ih]

theorem countKey_delete {β : Type} (m : JsMap β) (k j : Nat) :
    (m.delete k).countKey j ≤ m.countKey j := by
  induction m with
  | nil => simp [delete]
  | cons p rest ih =>
    by_cases hp : p.1 = k
    · simp only [delete, hp, if_true, countKey, List.countP_cons] at *
      omega
    · simp only [delete, hp, if_false, countKey, List.countP_cons] at *
      omega

/-- Any key of any map has at most one entry when the map is well-formed. -/
theorem wf_countKey_le {β : Type} {m : JsMap β} (h : m.WFmap) (k : Nat) :
    m.countKey k ≤ 1 := by
  rcases Nat.eq_zero_or_pos (m.countKey k) with hz | hpos
  · omega
  · rw [countKey] at hpos
    obtain ⟨q, hq, hqk⟩ := List.countP_pos_iff.mp hpos
    have hk : q.1 = k := by
      by_contra hne
      simp [hne] at hqk
    calc m.countKey k = m.countKey q.1 := by rw [hk]
    _ ≤ 1 := h q hq

theorem mem_set {β : Type} {m : JsMap β} {k : Nat} {v : β} {p : Nat × β}
    (h : p ∈ m.set k v) : p = (k, v) ∨ p ∈ m := by
  induction m with
  | nil => simpa [set] using h
  | cons q rest ih =>
    by_cases hq : q.1 = k
    · simp only [set, hq, if_true, List.mem_cons] at h
      rcases h with h | h
      · exact Or.inl h
      · exact Or.inr (List.mem_cons_of_mem q h)
    · simp only [set, hq, if_false, List.mem_cons] at h
      rcases h with h | h
      · exact Or.inr (by simp [h])
      · rcases ih h with h' | h'
        · exact Or.inl h'
        · exact Or.inr (List.mem_cons_of_mem q h')

theorem mem_delete {β : Type} {m : JsMap β} {k : Nat} {p : Nat × β}
    (h : p ∈ m.delete k) : p ∈ m := by
  induction m with
  | nil => simp [delete] at h
  | cons q rest ih =>
    by_cases hq : q.1 = k
    · simp only [delete, hq, if_true] at h
      exact List.mem_cons_of_mem q (ih h)
    · simp only [delete, hq, if_false, List.mem_cons] at h
      rcases h with h | h
      · simp [h]
      · exact List.mem_cons_of_mem q (ih h)

theorem wf_set {β : Type} (m : JsMap β) (k : Nat) (v : β) (h : m.WFmap) :
    (m.set k v).WFmap := by
  intro p hp
  have hle : m.countKey k ≤ 1 := wf_countKey_le h k
  by_cases hpk : p.1 = k
  · rw [hpk, countKey_set_self]
    omega
  · rw [countKey_set_ne m k p.1 v hpk]
    rcases mem_set hp with h' | h'
    · exact absurd (by simp [h']) hpk
    · exact h p h'

theorem wf_delete {β : Type} (m : JsMap β) (k : Nat) (h : m.WFmap) :
    (m.delete k).WFmap := by
  intro p hp
  exact le_trans (countKey_delete m k p.1) (h p (mem_delete hp))

theorem size_set_le {β : Type} (m : JsMap β) (k : Nat) (v : β) :
    (m.set k v).length ≤ m.length + 1 := by
  induction m with
  | nil => simp [set]
  | cons p rest ih =>
    by_cases h : p.1 = k
    · simp [set, h]
    · simp only [set, h, if_false, List.length_cons]
      omega

/-- `set` on a fresh key appends the new pair at the end. -/
theorem set_fresh {β : Type} (m : JsMap β) (k : Nat) (v : β)
    (h : ∀ p ∈ m, p.1 ≠ k) : m.set k v = m ++ [(k, v)] := by
  induction m with
  | nil => simp [set]
  | cons p rest ih =>
    have hp : p.1 ≠ k := h p (List.mem_cons_self p rest)
    simp only [set, hp, if_false, List.cons_append, List.cons.injEq, true_and]
    exact ih (fun q hq => h q (List.mem_cons_of_mem p hq))

/-- A successful `get` exhibits a pair stored in the list. -/
theorem get_mem {β : Type} (m : JsMap β) (k : Nat) (v : β)
    (h : m.get k = some v) : (k, v) ∈ m := by
  induction m with
  | nil => simp [get] at h
  | cons p rest ih =>
    by_cases hp : p.1 = k
    · simp only [get, hp, if_true, Option.some.injEq] at h
      subst h
      rw [← hp]
      exact List.mem_cons_self p rest
    · simp only [get, hp, if_false] at h
      exact List.mem_cons_of_mem p (ih h)

theorem get_append {β : Type} (m₁ m₂ : JsMap β) (k : Nat) :
    JsMap.get (m₁ ++ m₂) k = ((m₁.get k).orElse (fun _ => m₂.get k)) := by
  induction m₁ with
  | nil => simp [get, Option.orElse]
  | cons p rest ih =>
    by_cases hp : p.1 = k
    · simp [get, hp, Option.orElse]
    · simpa [get, hp] using ih

/-- `get` misses when no stored pair carries the key. -/
theorem get_eq_none {β : Type} (m : JsMap β) (k : Nat) (h : ∀ p ∈ m, p.1 ≠ k) :
    m.get k = none := by
  induction m with
  | nil => rfl
  | cons p rest ih =>
    simp only [get, h p (List.mem_cons_self p rest), if_false]
    exact ih (fun q hq => h q (List.mem_cons_of_mem p hq))


end JsMap

theorem usersWF_get {st : Storage} (h : usersWF st) {k : Nat} {u : User}
    (hget : st.users.get k = some u) : u.id = k :=
  h (k, u) (JsMap.get_mem st.users k u hget)

theorem convIdWF_get {st : Storage} (h : convIdWF st) {k : Nat} {c : Conversation}
    (hget : st.conversations.get k = some c) : c.id = k :=
  h (k, c) (JsMap.get_mem st.conversations k c hget)

/-! ## C1 -/

/-- C1 counterexample: after registering handle `wsA` and then handle `wsB`
for user 5, running the close handler that belongs to the stale handle `wsA`
does **not** leave the newer mapping in place — the claim asserts the
mapping for user 5 would survive (`some wsB`), but the registry entry is
gone. -/
theorem stale_unregister_evicts :
    ¬ ((wsOnClose ((JsMap.empty.set 5 wsA).set 5 wsB) stABC 5 9).reg.get 5 = some wsB) := by
  decide

/-- C1 (amended): the close handler deletes the registry entry for its
userId unconditionally — whatever handle is currently registered — and
always issues the `setUserActive(userId, false)` presence call, whether or
not a removal occurred; entries of other users are untouched.  In
particular a stale close callback evicts a newer, legitimate connection. -/
theorem unregister_unconditional (reg : JsMap WS) (st : Storage) (u now k : Nat)
    (hk : k ≠ u) :
    (wsOnClose reg st u now).reg.get u = none ∧
    (wsOnClose reg st u now).presenceCalls = [(u, false)] ∧
    (wsOnClose reg st u now).reg.get k = reg.get k :=
  ⟨JsMap.get_delete_self reg u, rfl, JsMap.get_delete_ne reg u k hk⟩

/-- Witness for `unregister_unconditional` at a concrete registry. -/
theorem unregister_unconditional_witness :
    (wsOnClose ((JsMap.empty.set 5 wsA).set 3 wsB) stABC 5 9).reg.get 5 = none ∧
    (wsOnClose ((JsMap.empty.set 5 wsA).set 3 wsB) stABC 5 9).presenceCalls = [(5, false)] ∧
    (wsOnClose ((JsMap.empty.set 5 wsA).set 3 wsB) stABC 5 9).reg.get 3 =
      ((JsMap.empty.set 5 wsA).set 3 wsB).get 3 :=
  unregister_unconditional ((JsMap.empty.set 5 wsA).set 3 wsB) stABC 5 9 3 (by decide)

/-! ## C2 -/

/-- C2 counterexample: a successfully authenticated connection-open whose
presence write (`setUserActive(user.id, true)`) throws ends with the
handler calling `ws.close()` — the throw lands in the catch-all of
`wss.on('connection')`, which closes the socket.  The claim asserts the
live connection is not closed when the presence write fails. -/
theorem presence_failure_closes_counterexample :
    (handleConnection envA stABC JsMap.empty wsA 5 true).closed = true := by
  decide

/-- C2 (amended): when the presence write throws on a successfully
authenticated connection-open, the catch-all handler logs and closes the
socket; the registry entry installed just before the failing write is still
present when the handler returns (it disappears only once the close event
fires), and storage is unchanged. -/
theorem presence_failure_closes (env : ConnEnv) (st : Storage) (reg : JsMap WS)
    (ws : WS) (now : Nat) (user : User)
    (h : authResolve env st = some user) :
    (handleConnection env st reg ws now true).closed = true ∧
    (handleConnection env st reg ws now true).reg.get user.id = some ws ∧
    (handleConnection env st reg ws now true).st = st := by
  simp [handleConnection, h, JsMap.get_set_self]

/-- Witness for `presence_failure_closes` at a concrete environment. -/
theorem presence_failure_closes_witness :
    (handleConnection envA stABC JsMap.empty wsA 5 true).closed = true ∧
    (handleConnection envA stABC JsMap.empty wsA 5 true).reg.get userA.id = some wsA ∧
    (handleConnection envA stABC JsMap.empty wsA 5 true).st = stABC :=
  presence_failure_closes envA stABC JsMap.empty wsA 5 userA (by decide)

/-! ## C3 -/

/-- C3 (confirmed): every rejected connection-open handshake — missing
cookie header, missing or malformed `connect.sid` cookie, failed unsign, a
session with no bound user, or a resolved user id with no user record
(exactly the cases in which `authResolve` yields `none`) — closes the
connection, leaves the registry untouched, issues no `setUserActive` call
(in particular no presence-online event) and sends nothing to the peer. -/
theorem rejected_handshake_no_effects (env : ConnEnv) (st : Storage)
    (reg : JsMap WS) (ws : WS) (now : Nat) (pt : Bool)
    (h : authResolve env st = none) :
    handleConnection env st reg ws now pt =
      { reg := reg, st := st, closed := true, presenceCalls := [], sent := [] } := by
  simp [handleConnection, h]

/-- Witness for `rejected_handshake_no_effects`: a request with no cookie
header. -/
theorem rejected_handshake_no_effects_witness :
    handleConnection { envA with cookieHeader := none } stABC ((JsMap.empty.set 3 wsB)) wsA 5 false =
      { reg := (JsMap.empty.set 3 wsB), st := stABC, closed := true,
        presenceCalls := [], sent := [] } :=
  rejected_handshake_no_effects { envA with cookieHeader := none } stABC
    (JsMap.empty.set 3 wsB) wsA 5 false (by decide)

/-! ## C8 -/

/-- C8 (confirmed): `activeConnections` holds at most one entry per userId:
the invariant is preserved by `set` (registration) and `delete`
(unregistration), and registering a second connection for the same user
replaces the prior entry — after two registrations for user `u` the
registry has exactly one entry under `u`, holding the later handle. -/
theorem registry_single_entry (reg : JsMap WS) (u : Nat) (h1 h2 : WS)
    (hwf : reg.WFmap) :
    ((reg.set u h1).set u h2).countKey u = 1 ∧
    ((reg.set u h1).set u h2).get u = some h2 ∧
    ((reg.set u h1).set u h2).WFmap ∧
    (∀ v : WS, (reg.set u v).WFmap) ∧ (reg.delete u).WFmap := by
  refine ⟨?_, JsMap.get_set_self _ u h2,
    JsMap.wf_set _ u h2 (JsMap.wf_set _ u h1 hwf),
    fun v => JsMap.wf_set _ u v hwf, JsMap.wf_delete _ u hwf⟩
  rw [JsMap.countKey_set_self, JsMap.countKey_set_self]
  have := JsMap.wf_countKey_le hwf u
  omega

/-- Witness for `registry_single_entry`: two quick registrations for user 5
on a registry already holding user 3. -/
theorem registry_single_entry_witness :
    (((JsMap.empty.set 3 wsB).set 5 wsA).set 5 wsB).countKey 5 = 1 ∧
    (((JsMap.empty.set 3 wsB).set 5 wsA).set 5 wsB).get 5 = some wsB ∧
    (((JsMap.empty.set 3 wsB).set 5 wsA).set 5 wsB).WFmap ∧
    (∀ v : WS, ((JsMap.empty.set 3 wsB).set 5 v).WFmap) ∧
    ((JsMap.empty.set 3 wsB).delete 5).WFmap :=
  registry_single_entry (JsMap.empty.set 3 wsB) 5 wsA wsB (by decide)

/-! ## C9 -/

/-- C9 (confirmed): `createUser` throws `"Maximum user limit reached"`
exactly when 10 (or more) users already exist — so an 11th registration
always fails — and succeeds otherwise; a failing call returns the error
before any mutation, so the user map is unchanged, and every successful
call grows the map by at most one and never beyond 10 users. -/
theorem createUser_limit (st : Storage) (iu : InsertUser) (now : Nat) :
    (10 ≤ st.users.size → createUser st iu now = Except.error "Maximum user limit reached") ∧
    (st.users.size < 10 →
      ∃ u, createUser st iu now =
        Except.ok ({ st with users := st.users.set st.currentId u,
                             currentId := st.currentId + 1 }, u)) ∧
    (∀ st' u, createUser st iu now = Except.ok (st', u) →
      st'.users.size ≤ st.users.size + 1 ∧ st'.users.size ≤ 10) := by
  refine ⟨fun h => by simp [createUser, h], fun h => ?_, fun st' u h => ?_⟩
  · exact ⟨{ id := st.currentId, username := iu.username, password := iu.password,
             isActive := false, lastSeen := some now },
           by simp [createUser, Nat.not_le.mpr h]⟩
  · by_cases hle : 10 ≤ st.users.size
    · simp [createUser, hle] at h
    · simp only [createUser, hle, if_false, Except.ok.injEq, Prod.mk.injEq] at h
      obtain ⟨hst, _⟩ := h
      have hsize : st'.users.size ≤ st.users.size + 1 := by
        rw [← hst]
        simpa [JsMap.size] using JsMap.size_set_le st.users st.currentId _
      exact ⟨hsize, by omega⟩

/-- Witness for `createUser_limit`: at 10 users the 11th registration
fails; at 3 users registration succeeds. -/
theorem createUser_limit_witness :
    createUser st10 { username := "x", password := "y" } 0 =
      Except.error "Maximum user limit reached" ∧
    ∃ u, createUser stABC { username := "x", password := "y" } 0 =
      Except.ok ({ stABC with users := stABC.users.set stABC.currentId u,
                              currentId := stABC.currentId + 1 }, u) :=
  ⟨(createUser_limit st10 { username := "x", password := "y" } 0).1 (by decide),
   (createUser_limit stABC { username := "x", password := "y" } 0).2.1 (by decide)⟩

/-! ## C6 -/

/-- With a well-formed user table, a member listed for a conversation can
only arise from a membership row carrying that same userId. -/
theorem mem_members_id (st : Storage) (cid : Option Nat) (hu : usersWF st)
    {m : User} (hm : m ∈ getConversationMembers st cid) :
    m.id ∈ rowUserIds st cid := by
  rcases List.mem_filterMap.mp hm with ⟨uid, huid, hget⟩
  rwa [usersWF_get hu hget]

/-- C6 (confirmed): an authenticated message-create by a caller with no
membership row in the target conversation answers 403 and leaves storage
untouched: no `createMessage` call, no message in the store, and zero
pushes. -/
theorem nonmember_message_403 (st : Storage) (reg : JsMap WS) (caller : Nat)
    (body : MessageBody) (now : Nat) (hu : usersWF st)
    (h : caller ∉ rowUserIds st body.conversationId) :
    postMessage st reg caller body now =
      { st := st, status := 403, message := none, pushes := [] } := by
  have hany : (getConversationMembers st body.conversationId).any
      (fun m => m.id == caller) = false := by
    rw [List.any_eq_false]
    intro m hm
    simp only [beq_iff_eq]
    intro heq
    exact h (heq ▸ mem_members_id st body.conversationId hu hm)
  simp [postMessage, hany]

/-- A conversation created by user 2 with member set {2, 3}; user 1 is not
a member. -/
def stG23 : Storage := (postConversation stABC 2 none ConvType.group [3] 10).st

/-- Witness for `nonmember_message_403`: user 1 posting into the {2,3}
conversation. -/
theorem nonmember_message_403_witness :
    postMessage stG23 JsMap.empty 1
        { conversationId := some 1, content := some "hi", type := "text", metadata := none } 20 =
      { st := stG23, status := 403, message := none, pushes := [] } :=
  nonmember_message_403 stG23 JsMap.empty 1
    { conversationId := some 1, content := some "hi", type := "text", metadata := none } 20
    (by decide) (by decide)

/-! ## C7 -/

/-- C7 counterexample: an authenticated member (user 2 of the {2,3}
conversation) sending a payload with no `conversationId` gets status 403,
not the claimed 400: `Number(undefined)` is `NaN`, no membership row
matches `NaN`, so the membership check — not a validation check — rejects
the request. -/
theorem missing_conversationId_counterexample :
    ¬ ((postMessage stG23 JsMap.empty 2
          { conversationId := none, content := some "hi", type := "text", metadata := none }
          0).status = 400) := by
  decide

/-- C7 (amended): an authenticated message-create whose payload is missing
`conversationId` is rejected with HTTP 403 ("Not a member of this
conversation"), because `Number(undefined) = NaN` matches no membership
row; no message is persisted and nothing is pushed.  (`POST /api/messages`
has no 400 validation step; only `GET /api/messages` answers 400.) -/
theorem missing_conversationId_403 (st : Storage) (reg : JsMap WS) (caller : Nat)
    (content : Option String) (ty md : String) (now : Nat) :
    postMessage st reg caller
        { conversationId := none, content := content, type := ty, metadata := some md } now =
      { st := st, status := 403, message := none, pushes := [] } := by
  have hrows : memberRows st none = [] := by
    rw [memberRows, List.filter_eq_nil_iff]
    intro r hr
    simp [jsNumEq]
  simp [postMessage, getConversationMembers, rowUserIds, hrows]

/-! ## C10 -/

theorem addUser_rows (st : Storage) (u cid now : Nat) (h : rowKeyWF st) :
    (addUserToConversation st u cid now).conversationMembers =
      st.conversationMembers ++
        [(st.currentMemberId,
          { id := st.currentMemberId, userId := u, conversationId := cid,
            joinedAt := now })] := by
  simp only [addUserToConversation]
  exact JsMap.set_fresh _ _ _ (fun p hp => Nat.ne_of_lt (h p hp))

theorem addUser_rowKeyWF (st : Storage) (u cid now : Nat) (h : rowKeyWF st) :
    rowKeyWF (addUserToConversation st u cid now) := by
  intro p hp
  simp only [addUserToConversation] at hp ⊢
  rcases JsMap.mem_set hp with h' | h'
  · simp [h']
  · have := h p h'
    omega

theorem rowUserIds_addUser (st : Storage) (u cid now cid' : Nat) (h : rowKeyWF st) :
    rowUserIds (addUserToConversation st u cid now) (some cid') =
      rowUserIds st (some cid') ++ (if cid = cid' then [u] else []) := by
  rw [rowUserIds, memberRows, addUser_rows st u cid now h]
  simp only [JsMap.values, List.map_append, List.filter_append]
  rw [rowUserIds, memberRows, JsMap.values]
  by_cases hc : cid = cid' <;> simp [hc, jsNumEq]

/-- Adding a list of users to conversation `cid` appends exactly those
userIds to the rows of `cid` and touches no other conversation's rows. -/
theorem rowUserIds_addAll (uids : List Nat) (st : Storage) (cid now cid' : Nat)
    (h : rowKeyWF st) :
    rowUserIds (uids.foldl (fun s uid => addUserToConversation s uid cid now) st) (some cid') =
      rowUserIds st (some cid') ++ (if cid = cid' then uids else []) ∧
    rowKeyWF (uids.foldl (fun s uid => addUserToConversation s uid cid now) st) := by
  induction uids generalizing st with
  | nil =>
    constructor
    · by_cases hc : cid = cid' <;> simp [hc]
    · exact h
  | cons u us ih =>
    have h1 := addUser_rowKeyWF st u cid now h
    obtain ⟨ha, hb⟩ := ih (addUserToConversation st u cid now) h1
    refine ⟨?_, by rw [List.foldl_cons]; exact hb⟩
    rw [List.foldl_cons, ha, rowUserIds_addUser st u cid now cid' h]
    by_cases hc : cid = cid' <;> simp [hc]

/-- No membership row matches a conversation id at or above the allocation
counter. -/
theorem rowUserIds_fresh_nil (st : Storage) (k : Nat) (hrc : rowConvWF st)
    (hk : st.currentConversationId ≤ k) : rowUserIds st (some k) = [] := by
  have hmr : memberRows st (some k) = [] := by
    rw [memberRows, List.filter_eq_nil_iff]
    intro r hr
    rcases List.mem_map.mp hr with ⟨p, hp, hpr⟩
    have hlt := hrc p hp
    subst hpr
    simp only [jsNumEq, Bool.not_eq_true, beq_eq_false_iff_ne, ne_eq]
    omega
  rw [rowUserIds, hmr, List.map_nil]

/-- Adding the creator and then each requested user to a conversation with
no prior rows yields exactly `creator :: userIds`. -/
theorem rowUserIds_create_chain (st' : Storage) (caller k now : Nat) (uids : List Nat)
    (hrk : rowKeyWF st') (hnil : rowUserIds st' (some k) = []) :
    rowUserIds (uids.foldl (fun s uid => addUserToConversation s uid k now)
      (addUserToConversation st' caller k now)) (some k) = caller :: uids := by
  have h1 := addUser_rowKeyWF st' caller k now hrk
  have h2 := (rowUserIds_addAll uids (addUserToConversation st' caller k now) k now k h1).1
  rw [h2, rowUserIds_addUser st' caller k now k hrk, hnil]
  simp

/-- C10 (confirmed): the conversation-creation flow (storage
`createConversation` plus the route's member-addition loop) registers the
creator as a member automatically: the new conversation's member userIds
are exactly the creator together with the requested userIds, even though
the creator is not listed in the request. -/
theorem createConv_member_set (st : Storage) (caller : Nat) (name : Option String)
    (ty : ConvType) (userIds : List Nat) (now : Nat)
    (hrc : rowConvWF st) (hrk : rowKeyWF st) :
    (createConvFlow st caller name ty userIds now).conv.id = st.currentConversationId ∧
    ∀ x, x ∈ rowUserIds (createConvFlow st caller name ty userIds now).st
            (some st.currentConversationId) ↔ x = caller ∨ x ∈ userIds := by
  refine ⟨rfl, fun x => ?_⟩
  have hnil : rowUserIds st (some st.currentConversationId) = [] :=
    rowUserIds_fresh_nil st st.currentConversationId hrc (Nat.le_refl _)
  have hmain : rowUserIds (createConvFlow st caller name ty userIds now).st
      (some st.currentConversationId) = caller :: userIds :=
    rowUserIds_create_chain
      { st with
        conversations :=
          st.conversations.set st.currentConversationId
            ({ id := st.currentConversationId, name := name, type := ty,
               createdAt := now } : Conversation),
        currentConversationId := st.currentConversationId + 1 }
      caller st.currentConversationId now userIds hrk hnil
  rw [hmain]
  simp [List.mem_cons]

/-- Witness for `createConv_member_set`: user 7 creates a group
conversation with requested members 8 and 9. -/
theorem createConv_member_set_witness :
    (createConvFlow emptyStorage 7 none ConvType.group [8, 9] 5).conv.id = 1 ∧
    (7 ∈ rowUserIds (createConvFlow emptyStorage 7 none ConvType.group [8, 9] 5).st (some 1) ↔
      7 = 7 ∨ 7 ∈ [8, 9]) := by
  have h := createConv_member_set emptyStorage 7 none ConvType.group [8, 9] 5
    (by decide) (by decide)
  exact ⟨h.1, h.2 7⟩

/-! ## C4 -/

theorem mem_insertByTs (a m : Message) (l : List Message) :
    a ∈ insertByTs m l ↔ a = m ∨ a ∈ l := by
  induction l with
  | nil => simp [insertByTs]
  | cons y ys ih =>
    by_cases h : tsKey y < tsKey m
    · simp only [insertByTs, h, if_true, List.mem_cons, ih]
      tauto
    · simp only [insertByTs, h, if_false, List.mem_cons]

theorem mem_sortByTs (a : Message) (l : List Message) :
    a ∈ sortByTs l ↔ a ∈ l := by
  induction l with
  | nil => simp [sortByTs]
  | cons x xs ih => simp [sortByTs, mem_insertByTs, ih]

/-- `createMessage` appends the new message when keys are fresh. -/
theorem createMessage_messages (st : Storage) (md : MessageData) (h : msgKeyWF st) :
    (createMessage st md).1.messages =
      st.messages ++ [(st.currentMessageId, (createMessage st md).2)] := by
  simp only [createMessage]
  exact JsMap.set_fresh _ _ _ (fun p hp => Nat.ne_of_lt (h p hp))

/-- With a well-formed user table, the ids of the resolved members are the
row userIds that have a user record, in order. -/
theorem members_ids (st : Storage) (hu : usersWF st) (uids : List Nat) :
    (uids.filterMap (fun u => st.users.get u)).map (fun m => m.id) =
      uids.filter (fun u => (st.users.get u).isSome) := by
  induction uids with
  | nil => rfl
  | cons u us ih =>
    cases hg : st.users.get u with
    | none => simp [List.filterMap_cons, hg, List.filter_cons, ih]
    | some x =>
      have hx := usersWF_get hu hg
      simp [List.filterMap_cons, hg, List.filter_cons, ih, hx]

/-- The recipients of the broadcast loop are exactly the member ids whose
registered connection reports itself open. -/
theorem pushes_fst (reg : JsMap WS) (members : List User) (msg : Message) :
    (members.filterMap (fun m =>
      match reg.get m.id with
      | some conn =>
          if conn.readyState == wsOPEN then
            some (m.id, ({ type := "new_message", data := msg } : Envelope))
          else none
      | none => none)).map Prod.fst =
    (members.map (fun m => m.id)).filter (connOpen reg) := by
  induction members with
  | nil => rfl
  | cons m ms ih =>
    rw [List.filterMap_cons, List.map_cons, List.filter_cons]
    cases hg : reg.get m.id with
    | none =>
      have hco : connOpen reg m.id = false := by simp [connOpen, hg]
      rw [hco]
      simpa using ih
    | some conn =>
      have hco : connOpen reg m.id = (conn.readyState == wsOPEN) := by
        simp [connOpen, hg]
      by_cases ho : (conn.readyState == wsOPEN) = true
      · simp only [hco, ho, if_true]
        simpa using ih
      · have ho' : (conn.readyState == wsOPEN) = false := by simpa using ho
        simp only [hco, ho', Bool.false_eq_true, if_false]
        simpa using ih

theorem count_nodup (l : List Nat) (a : Nat) (h : l.Nodup) :
    l.count a = if a ∈ l then 1 else 0 := by
  induction l with
  | nil => simp
  | cons x xs ih =>
    rcases List.nodup_cons.mp h with ⟨hx, hxs⟩
    by_cases hax : a = x
    · subst hax
      simp [List.count_cons, ih hxs, hx]
    · simp [List.count_cons, ih hxs, hax, Ne.symm hax]

/-- Any resolved member of a conversation forces the queried conversation
id to be an actual number (not `NaN`). -/
theorem member_cid_some (st : Storage) (cid : Option Nat) {m : User}
    (hm : m ∈ getConversationMembers st cid) : ∃ n, cid = some n := by
  rcases List.mem_filterMap.mp hm with ⟨uid, huid, _⟩
  rcases List.mem_map.mp huid with ⟨r, hr, _⟩
  rcases List.mem_filter.mp hr with ⟨_, hjs⟩
  cases cid with
  | some n => exact ⟨n, rfl⟩
  | none => simp [jsNumEq] at hjs

/-- C4 (amended): a message-create by a conversation member answers 200
and, **when the conversation's membership rows list each userId at most
once**, pushes exactly one `new_message` envelope to every member with a
registered open connection (the sender's connection included — it is not
special-cased) and zero to everyone else; the persisted message is
afterwards in `getMessages` of that conversation, so a member who was not
connected can still retrieve it.  Without the no-duplicate-rows condition
the loop pushes once per membership row, not once per member (see the
counterexample). -/
theorem fanout_per_open_member (st : Storage) (reg : JsMap WS) (caller : Nat)
    (body : MessageBody) (now : Nat)
    (hu : usersWF st) (hmsg : msgKeyWF st)
    (hnd : (rowUserIds st body.conversationId).Nodup)
    (hmem : (getConversationMembers st body.conversationId).any
      (fun m => m.id == caller) = true) :
    (postMessage st reg caller body now).status = 200 ∧
    (∀ uid, ((postMessage st reg caller body now).pushes.map Prod.fst).count uid =
      if uid ∈ rowUserIds st body.conversationId ∧
         (st.users.get uid).isSome = true ∧ connOpen reg uid = true
      then 1 else 0) ∧
    (∀ msg, (postMessage st reg caller body now).message = some msg →
      msg ∈ getMessages (postMessage st reg caller body now).st body.conversationId) := by
  refine ⟨by simp [postMessage, hmem], fun uid => ?_, fun msg hmsg' => ?_⟩
  · have hpush : (postMessage st reg caller body now).pushes =
        (getConversationMembers st body.conversationId).filterMap (fun m =>
          match reg.get m.id with
          | some conn =>
              if conn.readyState == wsOPEN then
                some (m.id,
                  ({ type := "new_message",
                     data := (createMessage st
                       { senderId := caller, conversationId := body.conversationId,
                         content := body.content, type := body.type,
                         metadata := body.metadata, timestamp := some now }).2 } : Envelope))
              else none
          | none => none) := by
      simp [postMessage, hmem]
    rw [hpush, pushes_fst, getConversationMembers, members_ids st hu]
    have hnodup : ((rowUserIds st body.conversationId).filter
        (fun u => (st.users.get u).isSome)).filter (connOpen reg) |>.Nodup :=
      (hnd.filter _).filter _
    rw [count_nodup _ uid hnodup]
    by_cases hc : uid ∈ rowUserIds st body.conversationId ∧
        (st.users.get uid).isSome = true ∧ connOpen reg uid = true
    · rw [if_pos hc, if_pos]
      simp only [List.mem_filter]
      exact ⟨⟨hc.1, hc.2.1⟩, hc.2.2⟩
    · rw [if_neg hc, if_neg]
      simp only [List.mem_filter, not_and]
      intro hmem'
      exact fun h3 => hc ⟨hmem'.1, hmem'.2, h3⟩
  · obtain ⟨m, hm, _⟩ := List.any_eq_true.mp hmem
    obtain ⟨n, hcid⟩ := member_cid_some st body.conversationId hm
    have hmsgeq : (postMessage st reg caller body now).message =
        some (createMessage st
          { senderId := caller, conversationId := body.conversationId,
            content := body.content, type := body.type,
            metadata := body.metadata, timestamp := some now }).2 := by
      simp [postMessage, hmem]
    have hsteq : (postMessage st reg caller body now).st =
        (createMessage st
          { senderId := caller, conversationId := body.conversationId,
            content := body.content, type := body.type,
            metadata := body.metadata, timestamp := some now }).1 := by
      simp [postMessage, hmem]
    rw [hmsgeq] at hmsg'
    obtain rfl := Option.some.injEq _ _ ▸ hmsg'
    rw [hsteq, getMessages, mem_sortByTs]
    rw [JsMap.values, createMessage_messages st _ hmsg]
    rw [List.map_append, List.filter_append]
    refine List.mem_append_right _ ?_
    simp [createMessage, hcid, jsNumEq]

/-- A group conversation created by user 1 with requested members 2 and 3:
member rows {1, 2, 3}. -/
def stG123 : Storage := (postConversation stABC 1 none ConvType.group [2, 3] 10).st

/-- Users 1 and 3 hold open connections; user 2 does not. -/
def regAC : JsMap WS :=
  [(1, { hid := 11, readyState := 1 }), (3, { hid := 13, readyState := 1 })]

def bodyG : MessageBody :=
  { conversationId := some 1, content := some "hey", type := "text", metadata := none }

/-- The message persisted by the witness scenario. -/
def msgG : Message :=
  { id := 1, conversationId := some 1, senderId := 1, content := some "hey",
    type := "text", metadata := none, timestamp := some 30 }

/-- Witness for `fanout_per_open_member`: the spec's {A,B,C} scenario —
A and C connected, B not; A sends; exactly one push each to A and C, zero
to B, and B can still fetch the message. -/
theorem fanout_per_open_member_witness :
    (postMessage stG123 regAC 1 bodyG 30).status = 200 ∧
    ((postMessage stG123 regAC 1 bodyG 30).pushes.map Prod.fst).count 1 = 1 ∧
    ((postMessage stG123 regAC 1 bodyG 30).pushes.map Prod.fst).count 2 = 0 ∧
    ((postMessage stG123 regAC 1 bodyG 30).pushes.map Prod.fst).count 3 = 1 ∧
    msgG ∈ getMessages (postMessage stG123 regAC 1 bodyG 30).st (some 1) := by
  have h := fanout_per_open_member stG123 regAC 1 bodyG 30
    (by decide) (by decide) (by decide) (by decide)
  refine ⟨h.1, ?_, ?_, ?_, h.2.2 msgG (by decide)⟩
  · have h2 := h.2.1 1
    rwa [if_pos (by refine ⟨by decide, by decide, by decide⟩)] at h2
  · have h2 := h.2.1 2
    rwa [if_neg (by decide)] at h2
  · have h2 := h.2.1 3
    rwa [if_pos (by refine ⟨by decide, by decide, by decide⟩)] at h2

/-- A group conversation created by user 1 whose request listed user 2
twice (`userIds = [2, 2]`): the membership rows list user 2 twice.  The
state is reached through the actual `POST /api/conversations` handler. -/
def stDup : Storage := (postConversation stABC 1 none ConvType.group [2, 2] 10).st

/-- User 2 holds an open connection. -/
def regB2 : JsMap WS := [(2, { hid := 20, readyState := 1 })]

/-- C4 counterexample: user 2 is a member (of member set {1, 2}) with an
open connection, yet the broadcast for one message pushes **two** envelopes
to user 2, because fan-out iterates membership rows and user 2 has two rows
— the claim's "exactly one push per open member" fails. -/
theorem fanout_duplicate_counterexample :
    connOpen regB2 2 = true ∧ 2 ∈ rowUserIds stDup (some 1) ∧
    ¬ (((postMessage stDup regB2 1
          { conversationId := some 1, content := some "hi", type := "text",
            metadata := none } 20).pushes.map Prod.fst).count 2 = 1) := by
  decide

/-! ## C5 -/

theorem memberRows_fresh_nil (st : Storage) (k : Nat) (hrc : rowConvWF st)
    (hk : st.currentConversationId ≤ k) : memberRows st (some k) = [] := by
  rw [memberRows, List.filter_eq_nil_iff]
  intro r hr
  rcases List.mem_map.mp hr with ⟨p, hp, hpr⟩
  have hlt := hrc p hp
  subst hpr
  simp only [jsNumEq, Bool.not_eq_true, beq_eq_false_iff_ne, ne_eq]
  omega

/-- Creating a private conversation with one target appends exactly two
membership rows: the creator's and the target's. -/
theorem members_after_create (st : Storage) (caller target : Nat)
    (name : Option String) (ty : ConvType) (now : Nat) (hrk : rowKeyWF st) :
    (createConvFlow st caller name ty [target] now).st.conversationMembers =
      st.conversationMembers ++
        [(st.currentMemberId,
          { id := st.currentMemberId, userId := caller,
            conversationId := st.currentConversationId, joinedAt := now }),
         (st.currentMemberId + 1,
          { id := st.currentMemberId + 1, userId := target,
            conversationId := st.currentConversationId, joinedAt := now })] := by
  show (st.conversationMembers.set st.currentMemberId _).set (st.currentMemberId + 1) _ = _
  rw [JsMap.set_fresh st.conversationMembers st.currentMemberId _
      (fun p hp => Nat.ne_of_lt (hrk p hp))]
  rw [JsMap.set_fresh _ (st.currentMemberId + 1) _ ?hfresh]
  · rw [List.append_assoc]
    rfl
  case hfresh =>
    intro p hp
    rcases List.mem_append.mp hp with h | h
    · exact Nat.ne_of_lt (Nat.lt_succ_of_lt (hrk p h))
    · rcases List.mem_singleton.mp h with rfl
      exact Nat.ne_of_lt (Nat.lt_succ_self _)

/-- The conversation table gains exactly the new conversation. -/
theorem convs_after_create (st : Storage) (caller target : Nat)
    (name : Option String) (ty : ConvType) (now : Nat) (hck : convKeysWF st) :
    (createConvFlow st caller name ty [target] now).st.conversations =
      st.conversations ++
        [(st.currentConversationId,
          { id := st.currentConversationId, name := name, type := ty,
            createdAt := now })] := by
  show st.conversations.set st.currentConversationId _ = _
  exact JsMap.set_fresh _ _ _ (fun p hp => Nat.ne_of_lt (hck p hp))

theorem memberRows_after_create (st : Storage) (caller target : Nat)
    (name : Option String) (ty : ConvType) (now : Nat) (cid : Nat) (hrk : rowKeyWF st) :
    memberRows (createConvFlow st caller name ty [target] now).st (some cid) =
      memberRows st (some cid) ++
        (List.filter (fun r => jsNumEq (some r.conversationId) (some cid))
          [{ id := st.currentMemberId, userId := caller,
             conversationId := st.currentConversationId, joinedAt := now },
           { id := st.currentMemberId + 1, userId := target,
             conversationId := st.currentConversationId, joinedAt := now }]) := by
  rw [memberRows, memberRows, members_after_create st caller target name ty now hrk]
  simp only [JsMap.values, List.map_append, List.filter_append]
  rfl

/-- Membership of any other conversation is untouched by the creation. -/
theorem members_unchanged_after_create (st : Storage) (caller target : Nat)
    (name : Option String) (ty : ConvType) (now : Nat) (cid : Nat)
    (hrk : rowKeyWF st) (hne : st.currentConversationId ≠ cid) :
    getConversationMembers (createConvFlow st caller name ty [target] now).st (some cid) =
      getConversationMembers st (some cid) := by
  simp only [getConversationMembers, rowUserIds,
    memberRows_after_create st caller target name ty now cid hrk]
  have hf : List.filter (fun r => jsNumEq (some r.conversationId) (some cid))
      ([{ id := st.currentMemberId, userId := caller,
          conversationId := st.currentConversationId, joinedAt := now },
        { id := st.currentMemberId + 1, userId := target,
          conversationId := st.currentConversationId, joinedAt := now }] :
        List ConversationMember) = [] := by
    simp [jsNumEq, hne]
  rw [hf, List.append_nil]
  rfl

/-- The member list of the newly created conversation resolves the creator
and the target through the (unchanged) user table. -/
theorem members_at_new_conv (st : Storage) (caller target : Nat)
    (name : Option String) (ty : ConvType) (now : Nat)
    (hrk : rowKeyWF st) (hrc : rowConvWF st) :
    getConversationMembers (createConvFlow st caller name ty [target] now).st
        (some st.currentConversationId) =
      List.filterMap (fun uid => st.users.get uid) [caller, target] := by
  simp only [getConversationMembers, rowUserIds,
    memberRows_after_create st caller target name ty now st.currentConversationId hrk]
  rw [memberRows_fresh_nil st st.currentConversationId hrc (Nat.le_refl _)]
  have hf : List.filter (fun r => jsNumEq (some r.conversationId)
        (some st.currentConversationId))
      ([{ id := st.currentMemberId, userId := caller,
          conversationId := st.currentConversationId, joinedAt := now },
        { id := st.currentMemberId + 1, userId := target,
          conversationId := st.currentConversationId, joinedAt := now }] :
        List ConversationMember) =
      [{ id := st.currentMemberId, userId := caller,
         conversationId := st.currentConversationId, joinedAt := now },
       { id := st.currentMemberId + 1, userId := target,
         conversationId := st.currentConversationId, joinedAt := now }] := by
    simp [jsNumEq]
  rw [hf]
  rfl

theorem find?_all_eq {α : Type} (l : List α) (c : α) (p : α → Bool)
    (hall : ∀ x ∈ l, x = c) (hne : l ≠ []) (hp : p c = true) :
    l.find? p = some c := by
  cases l with
  | nil => exact absurd rfl hne
  | cons x xs =>
    have hx : x = c := hall x (List.mem_cons_self x xs)
    subst hx
    rw [List.find?_cons_of_pos _ hp]

/-- The caller's conversation list after the creation is the old list
followed by copies of the new conversation (one per new membership row of
the caller). -/
theorem userConvs_after_create (st : Storage) (caller target : Nat)
    (name : Option String) (ty : ConvType) (now : Nat)
    (hck : convKeysWF st) (hrk : rowKeyWF st) (hrc : rowConvWF st) :
    getUserConversations (createConvFlow st caller name ty [target] now).st caller =
      getUserConversations st caller ++
        ((List.filter (fun r => r.userId == caller)
            ([{ id := st.currentMemberId, userId := caller,
                conversationId := st.currentConversationId, joinedAt := now },
              { id := st.currentMemberId + 1, userId := target,
                conversationId := st.currentConversationId, joinedAt := now }] :
              List ConversationMember)).map
          (fun r => r.conversationId)).filterMap
            (fun cid => JsMap.get (st.conversations ++
              [(st.currentConversationId,
                { id := st.currentConversationId, name := name, type := ty,
                  createdAt := now })]) cid) := by
  simp only [getUserConversations,
    members_after_create st caller target name ty now hrk,
    convs_after_create st caller target name ty now hck]
  simp only [JsMap.values, List.map_append, List.filter_append, List.filterMap_append]
  congr 1
  · apply List.filterMap_congr
    intro cid hcid
    rcases List.mem_map.mp hcid with ⟨r, hr, hcidr⟩
    rcases List.mem_filter.mp hr with ⟨hrmem, _⟩
    rcases List.mem_map.mp hrmem with ⟨p, hp, hpr⟩
    have hlt : r.conversationId < st.currentConversationId := by
      rw [← hpr]
      exact hrc p hp
    subst hcidr
    rw [JsMap.get_append]
    have hnone : JsMap.get
        [(st.currentConversationId,
          ({ id := st.currentConversationId, name := name, type := ty,
             createdAt := now } : Conversation))] r.conversationId = none := by
      have hne : st.currentConversationId ≠ r.conversationId := by omega
      simp [JsMap.get, hne]
    rw [hnone]
    cases st.conversations.get r.conversationId <;> rfl

/-- After a private creation that found no existing private chat, the
existing-chat scan finds exactly the conversation just created. -/
theorem findExisting_after_create (st : Storage) (caller target : Nat) (tu : User)
    (name : Option String) (now : Nat)
    (hu : usersWF st) (hc : convIdWF st) (hck : convKeysWF st)
    (hrc : rowConvWF st) (hrk : rowKeyWF st)
    (htu : st.users.get target = some tu)
    (hnone : findExistingPrivate st caller target = none) :
    findExistingPrivate (createConvFlow st caller name ConvType.priv [target] now).st
        caller target =
      some { id := st.currentConversationId, name := name, type := ConvType.priv,
             createdAt := now } := by
  have hget2k : JsMap.get (st.conversations ++
      [(st.currentConversationId,
        ({ id := st.currentConversationId, name := name, type := ConvType.priv,
           createdAt := now } : Conversation))]) st.currentConversationId =
      some { id := st.currentConversationId, name := name, type := ConvType.priv,
             createdAt := now } := by
    rw [JsMap.get_append,
      JsMap.get_eq_none st.conversations _ (fun p hp => Nat.ne_of_lt (hck p hp))]
    simp [JsMap.get, Option.orElse]
  rw [findExistingPrivate,
    userConvs_after_create st caller target name ConvType.priv now hck hrk hrc,
    List.find?_append]
  have h1 : List.find? (fun conv => conv.type == ConvType.priv &&
      (getConversationMembers
        (createConvFlow st caller name ConvType.priv [target] now).st
        (some conv.id)).any (fun m => m.id == target))
      (getUserConversations st caller) = none := by
    rw [List.find?_eq_none]
    intro c hcmem
    have hcid : c.id < st.currentConversationId := by
      rcases List.mem_filterMap.mp hcmem with ⟨cid, _, hget⟩
      have he := convIdWF_get hc hget
      have hl := hck _ (JsMap.get_mem _ _ _ hget)
      omega
    rw [members_unchanged_after_create st caller target name ConvType.priv now c.id hrk
      (by omega)]
    exact List.find?_eq_none.mp hnone c hcmem
  rw [h1]
  have hnew : List.find? (fun conv => conv.type == ConvType.priv &&
      (getConversationMembers
        (createConvFlow st caller name ConvType.priv [target] now).st
        (some conv.id)).any (fun m => m.id == target))
      (((List.filter (fun r => r.userId == caller)
          ([{ id := st.currentMemberId, userId := caller,
              conversationId := st.currentConversationId, joinedAt := now },
            { id := st.currentMemberId + 1, userId := target,
              conversationId := st.currentConversationId, joinedAt := now }] :
            List ConversationMember)).map
        (fun r => r.conversationId)).filterMap
          (fun cid => JsMap.get (st.conversations ++
            [(st.currentConversationId,
              { id := st.currentConversationId, name := name, type := ConvType.priv,
                createdAt := now })]) cid)) =
      some { id := st.currentConversationId, name := name, type := ConvType.priv,
             createdAt := now } := by
    apply find?_all_eq
    · intro x hx
      rcases List.mem_filterMap.mp hx with ⟨cid, hcidmem, hget⟩
      rcases List.mem_map.mp hcidmem with ⟨r, hrf, hcidr⟩
      have hrcid : r.conversationId = st.currentConversationId := by
        rcases List.mem_filter.mp hrf with ⟨hrmem, _⟩
        simp only [List.mem_cons, List.not_mem_nil, or_false] at hrmem
        rcases hrmem with rfl | rfl <;> rfl
      rw [← hcidr, hrcid, hget2k] at hget
      exact (Option.some.inj hget).symm
    · apply List.ne_nil_of_mem
        (a := ({ id := st.currentConversationId, name := name, type := ConvType.priv,
                 createdAt := now } : Conversation))
      refine List.mem_filterMap.mpr ⟨st.currentConversationId, ?_, hget2k⟩
      refine List.mem_map.mpr
        ⟨{ id := st.currentMemberId, userId := caller,
           conversationId := st.currentConversationId, joinedAt := now }, ?_, rfl⟩
      refine List.mem_filter.mpr ⟨by simp, by simp⟩
    · show (ConvType.priv == ConvType.priv &&
        (getConversationMembers
          (createConvFlow st caller name ConvType.priv [target] now).st
          (some st.currentConversationId)).any (fun m => m.id == target)) = true
      rw [members_at_new_conv st caller target name ConvType.priv now hrk hrc,
        Bool.and_eq_true]
      refine ⟨rfl, List.any_eq_true.mpr ⟨tu, ?_, ?_⟩⟩
      · exact List.mem_filterMap.mpr ⟨target, by simp, htu⟩
      · simp [usersWF_get hu htu]
  rw [hnew]
  rfl

/-- C5 (confirmed): creating a private conversation with a single target
**user** id is idempotent.  If the caller already has a private
conversation containing the target, the handler answers 200 with that
conversation and leaves storage untouched; and running the handler twice
with the same caller/target returns the same conversation id both times,
the second call never creating anything.  (The target must be a registered
user — the code resolves members through the user table, so a private
"conversation" created with a dangling target id is not found again.) -/
theorem private_creation_idempotent (st : Storage) (caller target : Nat) (tu : User)
    (name name2 : Option String) (now now2 : Nat)
    (hu : usersWF st) (hc : convIdWF st) (hck : convKeysWF st)
    (hrc : rowConvWF st) (hrk : rowKeyWF st)
    (htu : st.users.get target = some tu) :
    (∀ c, findExistingPrivate st caller target = some c →
      postConversation st caller name ConvType.priv [target] now =
        { st := st, status := 200, conv := c }) ∧
    ((postConversation
        (postConversation st caller name ConvType.priv [target] now).st
        caller name2 ConvType.priv [target] now2).conv.id =
      (postConversation st caller name ConvType.priv [target] now).conv.id ∧
     (postConversation
        (postConversation st caller name ConvType.priv [target] now).st
        caller name2 ConvType.priv [target] now2).st =
      (postConversation st caller name ConvType.priv [target] now).st) := by
  constructor
  · intro c hfind
    simp [postConversation, hfind]
  · cases hfind : findExistingPrivate st caller target with
    | some c =>
      have h1 : postConversation st caller name ConvType.priv [target] now =
          { st := st, status := 200, conv := c } := by
        simp [postConversation, hfind]
      have h2 : postConversation st caller name2 ConvType.priv [target] now2 =
          { st := st, status := 200, conv := c } := by
        simp [postConversation, hfind]
      rw [h1, h2]
      exact ⟨rfl, rfl⟩
    | none =>
      have h1 : postConversation st caller name ConvType.priv [target] now =
          createConvFlow st caller name ConvType.priv [target] now := by
        simp [postConversation, hfind]
      have hfind2 := findExisting_after_create st caller target tu name now
        hu hc hck hrc hrk htu hfind
      have h2 : postConversation
          (createConvFlow st caller name ConvType.priv [target] now).st
          caller name2 ConvType.priv [target] now2 =
          { st := (createConvFlow st caller name ConvType.priv [target] now).st,
            status := 200,
            conv := { id := st.currentConversationId, name := name,
                      type := ConvType.priv, createdAt := now } } := by
        simp [postConversation, hfind2]
      rw [h1, h2]
      exact ⟨rfl, rfl⟩

/-- Witness for `private_creation_idempotent`: user 1 creates a private
chat with user 2 twice; both calls return conversation 1 and the second
call leaves storage as the first left it. -/
theorem private_creation_idempotent_witness :
    (postConversation
        (postConversation stABC 1 none ConvType.priv [2] 10).st
        1 none ConvType.priv [2] 11).conv.id =
      (postConversation stABC 1 none ConvType.priv [2] 10).conv.id ∧
    (postConversation
        (postConversation stABC 1 none ConvType.priv [2] 10).st
        1 none ConvType.priv [2] 11).st =
      (postConversation stABC 1 none ConvType.priv [2] 10).st :=
  (private_creation_idempotent stABC 1 2 userB none none 10 11
    (by decide) (by decide) (by decide) (by decide) (by decide) (by decide)).2

end Messaging
